import Mathlib

/-!
# Verification of `data_augment.py` (Img2Latex)

Shallow embedding of the random image-augmentation module.  Canvases are
modelled as nested lists of rational pixel values (one scalar per channel)
together with a numpy dtype tag.  External collaborators — the resampling
primitive (`scipy.misc.imresize`), the colour-space conversions
(`skimage.rgb2hsv` / `hsv2rgb`) and the rotation primitive
(`scipy.ndimage.rotate`) — are taken as function parameters; their
published contracts (shape / dtype of the result) appear as hypotheses
where a theorem needs them.  The random draws consumed by the module are
passed in explicitly.  Python exceptions (`ZeroDivisionError` on
`float(imh)/float(eqh)` and `IndexError` on indexing an empty
`np.where(...)[0]` result) are modelled by an explicit error result.
-/

namespace DataAugment

attribute [local semireducible] Rat.mul Rat.add Rat.sub

/-- numpy element types that occur in the module. -/
inductive DType
  | uint8
  | float64
deriving DecidableEq, Repr

/-- One pixel: its list of channel scalars (three for RGB canvases). -/
abbrev Pix := List ℚ

/-- The raw H×W×C value grid of a numpy image array. -/
abbrev Grid := List (List Pix)

/-- A numpy image array: a dtype tag plus the value grid. -/
structure Image where
  dtype : DType
  data : Grid
deriving DecidableEq, Repr

/-- Height (`img.shape[0]`). -/
def Image.H (img : Image) : Nat := img.data.length

/-- Width of a grid (`shape[1]`), read off the first row as numpy's
rectangular shape does. -/
def gridW (g : Grid) : Nat := (g.headD []).length

/-- Width (`img.shape[1]`). -/
def Image.W (img : Image) : Nat := gridW img.data

/-- Elementwise map over every channel scalar of a grid. -/
def mapVals (f : ℚ → ℚ) (g : Grid) : Grid :=
  g.map (fun r => r.map (fun p => p.map f))

/-- All channel scalars of a grid, flattened. -/
def gridVals (g : Grid) : List ℚ := (g.map List.flatten).flatten

/-- Number of scalar entries of `g` equal to `v` (`np.sum(g == v)`). -/
def countVal (g : Grid) (v : ℚ) : Nat :=
  ((gridVals g).count v)

/-- Sum of the channels of one pixel. -/
def pixSum (p : Pix) : ℚ := p.sum

/-- Model of `np.sum(img, axis=(1,2))`: per-row sums across columns and channels. -/
def rowSums (g : Grid) : List ℚ :=
  g.map (fun r => (r.map pixSum).sum)

/-- Model of `np.sum(img, axis=(0,2))`: per-column sums across rows and channels. -/
def colSums (g : Grid) : List ℚ :=
  (List.range (gridW g)).map (fun j => (g.map (fun r => pixSum (r.getD j []))).sum)

/-- Model of `np.where(xs != 0)[0]`: the sorted indices of nonzero entries. -/
def nzIdx (xs : List ℚ) : List Nat :=
  (List.range xs.length).filter (fun i => xs.getD i 0 != 0)

/-- First and last nonzero index of a 1-D profile; `none` when the profile
is identically zero (indexing `[0]` / `[-1]` would raise `IndexError`). -/
def extent1 (xs : List ℚ) : Option (Nat × Nat) :=
  match (nzIdx xs).head?, (nzIdx xs).getLast? with
  | some a, some b => some (a, b)
  | _, _ => none

/-- Python exceptions that the module can raise on degenerate content. -/
inductive PyErr
  | zeroDivisionError
  | indexError
deriving DecidableEq, Repr

/-- Result of running a piece of Python code that may raise. -/
inductive PyResult (α : Type)
  | raise (e : PyErr)
  | ok (v : α)
deriving DecidableEq, Repr

/-- Model of `invert_img`: `255 - img`, elementwise; numpy keeps the dtype
(no wraparound occurs on uint8 since every uint8 value is ≤ 255). -/
def invert_img (img : Image) : Image :=
  ⟨img.dtype, mapVals (fun v => 255 - v) img.data⟩

/-- The value map of `astype(np.uint8)` (an identity on genuine uint8
values, which is the only case the module exercises). -/
def toU8 (v : ℚ) : ℚ := ((v.floor % 256 : ℤ) : ℚ)

/-- Model of `img.astype(np.uint8)`. -/
def astypeU8 (img : Image) : Image :=
  ⟨DType.uint8, mapVals toU8 img.data⟩

/-- numpy slice `l[a:b]` for non-negative bounds: elements `a,…,b-1`,
clamped to the list, empty when `a ≥ b`. -/
def sliceL (a b : Nat) (l : List α) : List α := (l.drop a).take (b - a)

/-- An all-zero RGB pixel (`np.pad` constant value 0 on each channel). -/
def zeroPix : Pix := [0, 0, 0]

/-- Model of `np.pad(g, ((u,d),(l,r),(0,0)), 'constant', constant_values=0)`:
`u` zero rows above, `d` below, `l` zero pixels left, `r` right. -/
def padGrid (g : Grid) (u d l r : Nat) : Grid :=
  let g2 := g.map (fun row => List.replicate l zeroPix ++ row ++ List.replicate r zeroPix)
  let w := l + gridW g + r
  List.replicate u (List.replicate w zeroPix) ++ g2 ++ List.replicate d (List.replicate w zeroPix)

/-- Lines 87–97 of `random_scale`: crop the resampled grid to
`[ymin:ymax, xmin:xmax]`, then re-pad it back to `imh×imw`, splitting each
axis deficit as `before = int(deficit/2)`, `after = deficit - before`. -/
def cropAndPad (dt : DType) (gScale : Grid) (imh imw ymin ymax xmin xmax : Nat) : Image :=
  let cropped := (sliceL ymin ymax gScale).map (fun row => sliceL xmin xmax row)
  let pu := (imh - cropped.length) / 2
  let pd := (imh - cropped.length) - pu
  let pl := (imw - gridW cropped) / 2
  let pr := (imw - gridW cropped) - pl
  ⟨dt, padGrid cropped pu pd pl pr⟩

/-- Model of `random_scale(img, min_scale, max_scale, min_pad)`.

The scale factor is drawn and fed to `scipy.misc.imresize`; the draw, the
`min_scale`/`max_scale` bounds and the resampling kernel are folded into
the abstract `resize` collaborator.  What remains from lines 42–53 is the
failure behaviour of the scale cap `min(imh/eqh, imw/eqw, max_scale)`:
`IndexError` when an axis has no nonzero entry, `ZeroDivisionError` when
`eqh = 0` or `eqw = 0`.  `y0 - min_pad` uses truncated Nat subtraction,
which coincides with the source's `max(row_sum[0] - min_pad, 0)`. -/
def random_scale (resize : Image → Image) (img : Image) (min_pad : Nat) : PyResult Image :=
  let imh := img.H
  let imw := img.W
  match extent1 (rowSums img.data), extent1 (colSums img.data) with
  | some (r0, r1), some (c0, c1) =>
    if r1 - r0 = 0 ∨ c1 - c0 = 0 then .raise .zeroDivisionError
    else
      let img_scale := resize img
      match extent1 (rowSums img_scale.data), extent1 (colSums img_scale.data) with
      | some (y0, y1), some (x0, x1) =>
        if (y1 - y0) + 2 * min_pad > imh ∨ (x1 - x0) + 2 * min_pad > imw then .ok img
        else
          .ok (cropAndPad img_scale.dtype img_scale.data imh imw
                (y0 - min_pad) (min (y1 + min_pad) (imh - 1))
                (x0 - min_pad) (min (x1 + min_pad) (imw - 1)))
      | _, _ => .raise .indexError
  | _, _ => .raise .indexError

/-- Model of `img[img > 1] = 1; img[img < 0] = 0` applied to one scalar. -/
def clamp01 (v : ℚ) : ℚ := if v > 1 then 1 else if v < 0 then 0 else v

/-- Model of `img_hsv[:,:,0] = hue; img_hsv[:,:,1] = sat; img_hsv[:,:,2] = val`
on one pixel. -/
def setHSVpix (h s v : ℚ) (p : Pix) : Pix := ((p.set 0 h).set 1 s).set 2 v

/-- Model of `new[orig == bg] = bg`: positionwise overwrite of `new` with `bg`
wherever the corresponding scalar of `orig` equals `bg`. -/
def maskSet (orig new : Grid) (bg : ℚ) : Grid :=
  List.zipWith (fun ro rn =>
    List.zipWith (fun po pn =>
      List.zipWith (fun o n => if o = bg then bg else n) po pn) ro rn) orig new

/-- Model of `random_hue(img)`.  The colour conversions are the abstract
collaborators `rgb2hsv`/`hsv2rgb`; the uniform draws are the parameters
`hueD`, `satD` (hue and saturation), `val07` (a `Uniform(0,0.7)` draw)
and `val31` (a `Uniform(0.3,1)` draw, used when the background is dark).
The background restoration writes `bg_value` into the `[0,1]`-ranged RGB
image, and the whole image is multiplied by 255 afterwards, exactly as in
the source. -/
def random_hue (rgb2hsv hsv2rgb : Image → Image) (hueD satD val07 val31 : ℚ)
    (img : Image) : Image :=
  let num_zero := countVal img.data 0
  let num_255 := countVal img.data 255
  let bg_value : ℚ := if num_zero > num_255 then 0 else 255
  let img_rgb := astypeU8 img
  let img_hsv := rgb2hsv img_rgb
  let val := if bg_value = 0 then val31 else val07
  let img_hsv2 : Image :=
    ⟨img_hsv.dtype, mapVals clamp01 (img_hsv.data.map (fun r => r.map (setHSVpix hueD satD val)))⟩
  let img_rgb2 := hsv2rgb img_hsv2
  let img_rgb3 : Image := ⟨img_rgb2.dtype, maskSet img.data img_rgb2.data bg_value⟩
  ⟨img_rgb3.dtype, mapVals (fun v => v * 255) img_rgb3.data⟩

/-- Model of `random_rotate(img, angle_std)`: rotate by a normally distributed
angle (the draw and the expansion behaviour are folded into the abstract
`rotateP` collaborator), then `imresize` the result back to `[imh, imw]`
(the abstract `resizeTo` collaborator). -/
def random_rotate (rotateP : Image → Image) (resizeTo : Nat → Nat → Image → Image)
    (img : Image) : Image :=
  resizeTo img.H img.W (rotateP img)

/-- The uniform random draws consumed by one call of `random_transform`:
one gate draw per stage plus the draws `random_hue` consumes. -/
structure Draws where
  d_orig : ℚ
  d_scale : ℚ
  d_hue : ℚ
  d_rot : ℚ
  d_inv : ℚ
  r_hue : ℚ
  r_sat : ℚ
  r_val07 : ℚ
  r_val31 : ℚ
deriving DecidableEq, Repr

/-- Model of `img_trf[img_trf > 200] = 255`. -/
def snapAbove200 (img : Image) : Image :=
  ⟨img.dtype, mapVals (fun v => if v > 200 then 255 else v) img.data⟩

/-- Model of `img_trf[img_trf < 55] = 0`. -/
def snapBelow55 (img : Image) : Image :=
  ⟨img.dtype, mapVals (fun v => if v < 55 then 0 else v) img.data⟩

/-- Model of `random_transform(img, original, invert, scale, min_scale, max_scale,
hue, rotate, angle_std)`.  `min_scale`, `max_scale` and `angle_std` only
feed the abstract collaborators and are folded into them; the gate draws
come from `D`.  `np.copy` produces a fresh array with the same values and
dtype, hence is the identity in this value-level model.  An exception
raised by `random_scale` propagates to the caller. -/
def random_transform (resize : Image → Image) (rgb2hsv hsv2rgb : Image → Image)
    (rotateP : Image → Image) (resizeTo : Nat → Nat → Image → Image)
    (D : Draws) (original invert scale hue rotate : ℚ) (img : Image) : PyResult Image :=
  if D.d_orig < original then .ok (astypeU8 img)
  else
    match (if D.d_scale < scale then random_scale resize img 0 else .ok img) with
    | .raise e => .raise e
    | .ok t1 =>
      let t2 := if D.d_hue < hue then
          random_hue rgb2hsv hsv2rgb D.r_hue D.r_sat D.r_val07 D.r_val31 t1
        else t1
      let t3 := if D.d_rot < rotate then random_rotate rotateP resizeTo t2 else t2
      .ok (if D.d_inv < invert then snapAbove200 (invert_img t3) else snapBelow55 t3)

/-- Shape predicate: `g` is an `h×w×3` rectangular value grid. -/
def GridShape (g : Grid) (h w : Nat) : Prop :=
  g.length = h ∧ ∀ r ∈ g, r.length = w ∧ ∀ p ∈ r, p.length = 3

instance (g : Grid) (h w : Nat) : Decidable (GridShape g h w) := by
  unfold GridShape; infer_instance

/-- Predicate: `img` is an `h×w×3` canvas. -/
abbrev HasShape (img : Image) (h w : Nat) : Prop := GridShape img.data h w

/-- A scalar that a genuine uint8 array can hold: an integer in `[0,255]`. -/
def IsU8 (v : ℚ) : Prop := ((v.floor : ℤ) : ℚ) = v ∧ 0 ≤ v ∧ v ≤ 255

/-- All scalars of the canvas are genuine uint8 values. -/
def U8Image (img : Image) : Prop := ∀ v ∈ gridVals img.data, IsU8 v

instance (v : ℚ) : Decidable (IsU8 v) := by
  unfold IsU8; infer_instance

instance (img : Image) : Decidable (U8Image img) := by
  unfold U8Image; infer_instance

theorem length_mapVals (f : ℚ → ℚ) (g : Grid) : (mapVals f g).length = g.length := by
  simp [mapVals]

theorem gridW_mapVals (f : ℚ → ℚ) (g : Grid) : gridW (mapVals f g) = gridW g := by
  cases g <;> simp [gridW, mapVals]

theorem gridVals_mapVals (f : ℚ → ℚ) (g : Grid) :
    gridVals (mapVals f g) = (gridVals g).map f := by
  simp [gridVals, mapVals, List.map_flatten, List.map_map, Function.comp_def]

theorem gridShape_mapVals (f : ℚ → ℚ) {g : Grid} {h w : Nat} (hs : GridShape g h w) :
    GridShape (mapVals f g) h w := by
  obtain ⟨h1, h2⟩ := hs
  refine ⟨by simpa [mapVals] using h1, ?_⟩
  intro r hr
  simp only [mapVals, List.mem_map] at hr
  obtain ⟨r0, hr0, rfl⟩ := hr
  obtain ⟨hrl, hrp⟩ := h2 r0 hr0
  refine ⟨by simpa using hrl, ?_⟩
  intro p hp
  simp only [List.mem_map] at hp
  obtain ⟨p0, hp0, rfl⟩ := hp
  simpa using hrp p0 hp0

theorem mapVals_eq_self {f : ℚ → ℚ} {g : Grid} (h : ∀ v ∈ gridVals g, f v = v) :
    mapVals f g = g := by
  unfold mapVals
  conv_rhs => rw [← List.map_id g]
  refine List.map_congr_left ?_
  intro r hr
  conv_rhs => rw [show id r = r from rfl, ← List.map_id r]
  refine List.map_congr_left ?_
  intro p hp
  conv_rhs => rw [← List.map_id p]
  refine List.map_congr_left ?_
  intro v hv
  refine h v ?_
  simp only [gridVals, List.mem_flatten, List.mem_map]
  exact ⟨r.flatten, ⟨r, hr, rfl⟩, by simp [List.mem_flatten]; exact ⟨p, hp, hv⟩⟩

theorem mapVals_comp (f g : ℚ → ℚ) (d : Grid) :
    mapVals f (mapVals g d) = mapVals (fun v => f (g v)) d := by
  simp [mapVals, List.map_map, Function.comp_def]

/-- C9 helper: inverting twice is the identity on each scalar. -/
theorem invert_invert_val (v : ℚ) : 255 - (255 - v) = v := by ring

/-- Claim C9: `invert_img` is a total pure elementwise map `v ↦ 255 - v`
that keeps height, width and dtype, and it is an involution:
`invert_img (invert_img img) = img` exactly, for every image. -/
theorem C9_invert_involution (img : Image) :
    invert_img (invert_img img) = img ∧
    (invert_img img).data = mapVals (fun v => 255 - v) img.data ∧
    (invert_img img).H = img.H ∧ (invert_img img).W = img.W ∧
    (invert_img img).dtype = img.dtype := by
  refine ⟨?_, rfl, ?_, ?_, rfl⟩
  · cases img with
    | mk dt d =>
      simp only [invert_img, Image.mk.injEq, true_and]
      rw [mapVals_comp]
      exact mapVals_eq_self (fun v _ => invert_invert_val v)
  · simp [invert_img, Image.H, length_mapVals]
  · simp [invert_img, Image.W, gridW_mapVals]

/-- Claim C1: background preservation fails on a light-background canvas.
On the 1×2 uint8 canvas `[[255,255,255],[1,1,1]]` the majority background
value is 255 (three scalars equal 255, none equal 0), yet `random_hue`
returns 65025 at every background position: the restoration writes 255
into the `[0,1]`-ranged RGB image and the final `*255` scales it to
255·255.  (Shown here with identity colour conversions and zero draws;
the background positions are overwritten after the conversions, so their
output value does not depend on either.)  The dark-background case
(`bg_value = 0`) is unaffected since `0*255 = 0`, witnessed by the second
conjunct on the polarity-flipped canvas. -/
theorem C1_background_not_bit_exact :
    (countVal (Image.mk DType.uint8 [[[255, 255, 255], [1, 1, 1]]]).data 0 = 0 ∧
      countVal (Image.mk DType.uint8 [[[255, 255, 255], [1, 1, 1]]]).data 255 = 3 ∧
      random_hue (fun im => im) (fun im => im) 0 0 0 0
          (Image.mk DType.uint8 [[[255, 255, 255], [1, 1, 1]]]) =
        Image.mk DType.uint8 [[[65025, 65025, 65025], [0, 0, 0]]]) ∧
    (countVal (Image.mk DType.uint8 [[[0, 0, 0], [254, 254, 254]]]).data 0 = 3 ∧
      countVal (Image.mk DType.uint8 [[[0, 0, 0], [254, 254, 254]]]).data 255 = 0 ∧
      random_hue (fun im => im) (fun im => im) 0 0 0 0
          (Image.mk DType.uint8 [[[0, 0, 0], [254, 254, 254]]]) =
        Image.mk DType.uint8 [[[0, 0, 0], [0, 0, 0]]]) := by
  decide

/-- Claim C2: the crop does not keep the clipped extent inclusively.  On a
3×3 canvas with nonzero pixels at (0,0) and (1,1), identity resampling
and `min_pad = 0`, the clipped extent is rows 0..1 and columns 0..1, yet
the half-open slice `img_scale[0:1, 0:1]` keeps only row 0 and column 0:
the value 7 stored at (1,1) — inside the clipped extent — is absent from
the output, contradicting the inclusive-crop claim (and the source's own
comment that nonzero pixels are found "to avoid cropping them"). -/
theorem C2_crop_drops_extent_boundary :
    extent1 (rowSums (Image.mk DType.uint8
        [[[5, 5, 5], [0, 0, 0], [0, 0, 0]],
         [[0, 0, 0], [7, 7, 7], [0, 0, 0]],
         [[0, 0, 0], [0, 0, 0], [0, 0, 0]]]).data) = some (0, 1) ∧
    extent1 (colSums (Image.mk DType.uint8
        [[[5, 5, 5], [0, 0, 0], [0, 0, 0]],
         [[0, 0, 0], [7, 7, 7], [0, 0, 0]],
         [[0, 0, 0], [0, 0, 0], [0, 0, 0]]]).data) = some (0, 1) ∧
    countVal (Image.mk DType.uint8
        [[[5, 5, 5], [0, 0, 0], [0, 0, 0]],
         [[0, 0, 0], [7, 7, 7], [0, 0, 0]],
         [[0, 0, 0], [0, 0, 0], [0, 0, 0]]]).data 7 = 3 ∧
    random_scale (fun im => im)
        (Image.mk DType.uint8
          [[[5, 5, 5], [0, 0, 0], [0, 0, 0]],
           [[0, 0, 0], [7, 7, 7], [0, 0, 0]],
           [[0, 0, 0], [0, 0, 0], [0, 0, 0]]]) 0 =
      PyResult.ok (Image.mk DType.uint8
        [[[0, 0, 0], [0, 0, 0], [0, 0, 0]],
         [[0, 0, 0], [5, 5, 5], [0, 0, 0]],
         [[0, 0, 0], [0, 0, 0], [0, 0, 0]]]) := by
  decide

/-- Claim C10: when the nonzero content of the input occupies a single row
(`row_max = row_min`) or a single column (`col_max = col_min`), the
content height `eqh` (resp. width `eqw`) computed as last-minus-first
nonzero index is 0 and the scale cap `min(imh/eqh, imw/eqw, max_scale)`
raises `ZeroDivisionError` — for every resampler and every `min_pad`.
Totality thus needs content spanning at least two rows and two columns. -/
theorem C10_single_row_or_col_divides_by_zero
    (resize : Image → Image) (img : Image) (min_pad : Nat)
    (r0 r1 c0 c1 : Nat)
    (hr : extent1 (rowSums img.data) = some (r0, r1))
    (hc : extent1 (colSums img.data) = some (c0, c1))
    (hdeg : r1 = r0 ∨ c1 = c0) :
    random_scale resize img min_pad = PyResult.raise PyErr.zeroDivisionError := by
  unfold random_scale
  rw [hr, hc]
  simp only
  rw [if_pos]
  rcases hdeg with h | h
  · exact Or.inl (by omega)
  · exact Or.inr (by omega)

/-- Witness for C10: a 2×2 canvas whose content sits in the single row 0
(nonzero pixels at (0,0) and (0,1)) makes `random_scale` raise
`ZeroDivisionError`. -/
theorem C10_single_row_or_col_divides_by_zero_witness :
    random_scale (fun im => im)
        (Image.mk DType.uint8 [[[1, 1, 1], [2, 2, 2]], [[0, 0, 0], [0, 0, 0]]]) 0 =
      PyResult.raise PyErr.zeroDivisionError :=
  C10_single_row_or_col_divides_by_zero (fun im => im)
    (Image.mk DType.uint8 [[[1, 1, 1], [2, 2, 2]], [[0, 0, 0], [0, 0, 0]]]) 0
    0 0 0 1 (by decide) (by decide) (Or.inl rfl)

/-- Claim C4: whenever the post-resample content extent satisfies
`(row_max - row_min) + 2*min_pad > H` or `(col_max - col_min) + 2*min_pad > W`,
`random_scale` returns the original input canvas unchanged (as the same
value, no crop and no pad), for every resampler. -/
theorem C4_fallback_returns_input
    (resize : Image → Image) (img : Image) (min_pad : Nat)
    (r0 r1 c0 c1 y0 y1 x0 x1 : Nat)
    (hr : extent1 (rowSums img.data) = some (r0, r1))
    (hc : extent1 (colSums img.data) = some (c0, c1))
    (hr0 : r1 - r0 ≠ 0) (hc0 : c1 - c0 ≠ 0)
    (hy : extent1 (rowSums (resize img).data) = some (y0, y1))
    (hx : extent1 (colSums (resize img).data) = some (x0, x1))
    (hcond : (y1 - y0) + 2 * min_pad > img.H ∨ (x1 - x0) + 2 * min_pad > img.W) :
    random_scale resize img min_pad = PyResult.ok img := by
  unfold random_scale
  rw [hr, hc]
  simp only
  rw [if_neg (by push_neg; exact ⟨hr0, hc0⟩), hy, hx]
  simp only
  rw [if_pos hcond]

/-- Witness for C4: a 3×3 canvas with a 2×2 content block, resampled by a
collaborator that blows the content up to fill a 5×5 canvas (extent span
4 > 3), is returned unchanged. -/
theorem C4_fallback_returns_input_witness :
    random_scale
        (fun _ => Image.mk DType.uint8
          (List.replicate 5 (List.replicate 5 [1, 1, 1])))
        (Image.mk DType.uint8
          [[[9, 9, 9], [0, 0, 0], [0, 0, 0]],
           [[0, 0, 0], [8, 8, 8], [0, 0, 0]],
           [[0, 0, 0], [0, 0, 0], [0, 0, 0]]]) 0 =
      PyResult.ok (Image.mk DType.uint8
        [[[9, 9, 9], [0, 0, 0], [0, 0, 0]],
         [[0, 0, 0], [8, 8, 8], [0, 0, 0]],
         [[0, 0, 0], [0, 0, 0], [0, 0, 0]]]) :=
  C4_fallback_returns_input _ _ 0 0 1 0 1 0 4 0 4
    (by decide) (by decide) (by decide) (by decide) (by decide) (by decide)
    (Or.inl (by decide))

theorem toU8_of_IsU8 {v : ℚ} (h : IsU8 v) : toU8 v = v := by
  obtain ⟨hfl, h0, h255⟩ := h
  have h0' : (0 : ℤ) ≤ v.floor := by
    have : (0 : ℚ) ≤ ((v.floor : ℤ) : ℚ) := by rw [hfl]; exact h0
    exact_mod_cast this
  have h1' : v.floor < 256 := by
    have : ((v.floor : ℤ) : ℚ) ≤ 255 := by rw [hfl]; exact h255
    have : v.floor ≤ 255 := by exact_mod_cast this
    omega
  unfold toU8
  rw [Int.emod_eq_of_lt h0' h1']
  exact hfl

theorem astypeU8_data_of_U8 {img : Image} (h : U8Image img) :
    (astypeU8 img).data = img.data :=
  mapVals_eq_self (fun v hv => toU8_of_IsU8 (h v hv))

/-- Claim C8: when the identity gate's draw satisfies `d < original`,
`random_transform` returns the input cast to uint8 — with the value grid
unchanged for a genuine uint8 canvas — and the result does not depend on
any later gate's draw, threshold or collaborator (no later gate is
applied): two runs agreeing only on the identity draw agree entirely. -/
theorem C8_identity_gate
    (resize rgb2hsv hsv2rgb rotateP resize' rgb2hsv' hsv2rgb' rotateP' : Image → Image)
    (resizeTo resizeTo' : Nat → Nat → Image → Image)
    (D D' : Draws) (original invert scale hue rotate invert' scale' hue' rotate' : ℚ)
    (img : Image)
    (hgate : D.d_orig < original) (hsame : D'.d_orig = D.d_orig)
    (hWF : U8Image img) :
    random_transform resize rgb2hsv hsv2rgb rotateP resizeTo D
        original invert scale hue rotate img = PyResult.ok (astypeU8 img) ∧
    random_transform resize' rgb2hsv' hsv2rgb' rotateP' resizeTo' D'
        original invert' scale' hue' rotate' img = PyResult.ok (astypeU8 img) ∧
    (astypeU8 img).data = img.data ∧
    (astypeU8 img).dtype = DType.uint8 := by
  refine ⟨?_, ?_, astypeU8_data_of_U8 hWF, rfl⟩
  · unfold random_transform
    rw [if_pos hgate]
  · unfold random_transform
    rw [if_pos (by rw [hsame]; exact hgate)]

/-- Witness for C8: a 1×1 float-typed canvas of 44s with `original = 1`
and draw 0 comes back as the uint8 cast with the same values, whatever
the other thresholds are. -/
theorem C8_identity_gate_witness :
    random_transform (fun im => im) (fun im => im) (fun im => im) (fun im => im)
        (fun _ _ im => im) (Draws.mk 0 0 0 0 0 0 0 0 0) 1 0 0 0 0
        (Image.mk DType.float64 [[[44, 44, 44]]])
      = PyResult.ok (astypeU8 (Image.mk DType.float64 [[[44, 44, 44]]])) ∧
    random_transform (fun im => im) (fun im => im) (fun im => im) (fun im => im)
        (fun _ _ im => im) (Draws.mk 0 9 9 9 9 9 9 9 9) 1 1 1 1 1
        (Image.mk DType.float64 [[[44, 44, 44]]])
      = PyResult.ok (astypeU8 (Image.mk DType.float64 [[[44, 44, 44]]])) ∧
    (astypeU8 (Image.mk DType.float64 [[[44, 44, 44]]])).data =
      (Image.mk DType.float64 [[[44, 44, 44]]]).data ∧
    (astypeU8 (Image.mk DType.float64 [[[44, 44, 44]]])).dtype = DType.uint8 :=
  C8_identity_gate (fun im => im) (fun im => im) (fun im => im) (fun im => im)
    (fun im => im) (fun im => im) (fun im => im) (fun im => im)
    (fun _ _ im => im) (fun _ _ im => im)
    (Draws.mk 0 0 0 0 0 0 0 0 0) (Draws.mk 0 9 9 9 9 9 9 9 9) 1 0 0 0 0 1 1 1 1
    (Image.mk DType.float64 [[[44, 44, 44]]])
    (by decide) (by decide) (by decide)

theorem snapAbove200_no_midrange (img : Image) :
    ∀ v ∈ gridVals (snapAbove200 img).data, ¬(200 < v ∧ v < 255) := by
  intro v hv
  have : v ∈ (gridVals img.data).map (fun u => if u > 200 then (255 : ℚ) else u) := by
    simpa [snapAbove200, gridVals_mapVals] using hv
  obtain ⟨u, _, rfl⟩ := List.mem_map.mp this
  by_cases h : u > 200
  · rw [if_pos h]
    rintro ⟨_, h2⟩
    exact lt_irrefl _ h2
  · rw [if_neg h]
    rintro ⟨h1, _⟩
    exact h h1

theorem snapBelow55_no_midrange (img : Image) :
    ∀ v ∈ gridVals (snapBelow55 img).data, ¬(0 < v ∧ v < 55) := by
  intro v hv
  have : v ∈ (gridVals img.data).map (fun u => if u < 55 then (0 : ℚ) else u) := by
    simpa [snapBelow55, gridVals_mapVals] using hv
  obtain ⟨u, _, rfl⟩ := List.mem_map.mp this
  by_cases h : u < 55
  · rw [if_pos h]
    rintro ⟨h1, _⟩
    exact lt_irrefl _ h1
  · rw [if_neg h]
    rintro ⟨_, h2⟩
    exact h h2

/-- Claim C5: on every successful non-identity execution of
`random_transform`, exactly one of the two final cleanup ops runs,
independently of the scale/hue/rotate gates: if the invert draw fires the
output is an inverted canvas with every scalar above 200 snapped to 255,
leaving no output scalar strictly between 200 and 255; otherwise every
scalar below 55 is snapped to 0, leaving no output scalar strictly
between 0 and 55. -/
theorem C5_final_cleanup
    (resize rgb2hsv hsv2rgb rotateP : Image → Image)
    (resizeTo : Nat → Nat → Image → Image)
    (D : Draws) (original invert scale hue rotate : ℚ) (img out : Image)
    (hid : ¬ D.d_orig < original)
    (hok : random_transform resize rgb2hsv hsv2rgb rotateP resizeTo D
        original invert scale hue rotate img = PyResult.ok out) :
    (D.d_inv < invert →
      (∃ mid : Image, out = snapAbove200 (invert_img mid)) ∧
      ∀ v ∈ gridVals out.data, ¬(200 < v ∧ v < 255)) ∧
    (¬ D.d_inv < invert →
      (∃ mid : Image, out = snapBelow55 mid) ∧
      ∀ v ∈ gridVals out.data, ¬(0 < v ∧ v < 55)) := by
  unfold random_transform at hok
  rw [if_neg hid] at hok
  cases hsc : (if D.d_scale < scale then random_scale resize img 0 else PyResult.ok img) with
  | raise e =>
    rw [hsc] at hok
    exact absurd hok (by simp)
  | ok t1 =>
    rw [hsc] at hok
    simp only [] at hok
    constructor
    · intro hinv
      rw [if_pos hinv] at hok
      have hout := (PyResult.ok.injEq _ _).mp hok
      constructor
      · exact ⟨_, hout.symm⟩
      · rw [← hout]
        exact snapAbove200_no_midrange _
    · intro hinv
      rw [if_neg hinv] at hok
      have hout := (PyResult.ok.injEq _ _).mp hok
      constructor
      · exact ⟨_, hout.symm⟩
      · rw [← hout]
        exact snapBelow55_no_midrange _

/-- Witness for C5: with all prior gates off and the invert gate on, the
1×1 canvas of 100s becomes the inverted canvas of 155s, with no scalar in
(200, 255). -/
theorem C5_final_cleanup_witness :
    (∃ mid : Image, Image.mk DType.uint8 [[[155, 155, 155]]] = snapAbove200 (invert_img mid)) ∧
    ∀ v ∈ gridVals (Image.mk DType.uint8 [[[155, 155, 155]]]).data, ¬(200 < v ∧ v < 255) :=
  (C5_final_cleanup (fun im => im) (fun im => im) (fun im => im) (fun im => im)
    (fun _ _ im => im) (Draws.mk 0 0 0 0 0 0 0 0 0) 0 1 0 0 0
    (Image.mk DType.uint8 [[[100, 100, 100]]]) (Image.mk DType.uint8 [[[155, 155, 155]]])
    (by decide) (by decide)).1 (by decide)

/-- Claim C3, counterexample: `random_transform` does not always return a
uint8 canvas on the transformed path.  On a well-formed 1×1 uint8 canvas,
with the identity gate and the scale/rotate gates not firing and the hue
gate firing, the output carries the float64 dtype of the colour
round-trip (skimage's `hsv2rgb` returns float64), not uint8. -/
theorem C3_transformed_path_not_uint8 :
    U8Image (Image.mk DType.uint8 [[[10, 10, 10]]]) ∧
    HasShape (Image.mk DType.uint8 [[[10, 10, 10]]]) 1 1 ∧
    random_transform (fun im => im)
        (fun im => Image.mk DType.float64 im.data)
        (fun im => Image.mk DType.float64 im.data)
        (fun im => im) (fun _ _ im => im)
        (Draws.mk 1 1 0 1 1 0 0 0 0) 0 0 0 1 0
        (Image.mk DType.uint8 [[[10, 10, 10]]])
      = PyResult.ok (Image.mk DType.float64 [[[0, 0, 0]]]) := by
  decide

/-- Claim C3, amended: the output of `random_transform` is uint8 on the
identity-gate path and on every transformed path where the rotate gate
fires (the final resize-to-size returns uint8); when neither holds the
output dtype can differ from uint8 — e.g. float64 when the hue gate is
the last stage to fire. -/
theorem C3_dtype_amended
    (resize rgb2hsv hsv2rgb rotateP : Image → Image)
    (resizeTo : Nat → Nat → Image → Image)
    (hRT : ∀ h w im, (resizeTo h w im).dtype = DType.uint8)
    (D : Draws) (original invert scale hue rotate : ℚ) (img out : Image)
    (hok : random_transform resize rgb2hsv hsv2rgb rotateP resizeTo D
        original invert scale hue rotate img = PyResult.ok out)
    (hgate : D.d_orig < original ∨ D.d_rot < rotate) :
    out.dtype = DType.uint8 := by
  unfold random_transform at hok
  by_cases h0 : D.d_orig < original
  · rw [if_pos h0] at hok
    have := (PyResult.ok.injEq _ _).mp hok
    rw [← this]
    rfl
  · have hrot : D.d_rot < rotate := hgate.resolve_left h0
    rw [if_neg h0] at hok
    cases hsc : (if D.d_scale < scale then random_scale resize img 0 else PyResult.ok img) with
    | raise e =>
      rw [hsc] at hok
      exact absurd hok (by simp)
    | ok t1 =>
      rw [hsc] at hok
      simp only [if_pos hrot] at hok
      have hout := (PyResult.ok.injEq _ _).mp hok
      rw [← hout]
      by_cases hinv : D.d_inv < invert <;>
        simp [hinv, snapAbove200, snapBelow55, invert_img, random_rotate, hRT]

theorem mem_zipWith {f : α → β → γ} :
    ∀ {l1 : List α} {l2 : List β} {c : γ},
      c ∈ List.zipWith f l1 l2 → ∃ a ∈ l1, ∃ b ∈ l2, c = f a b := by
  intro l1
  induction l1 with
  | nil => intro l2 c hc; simp at hc
  | cons a t ih =>
    intro l2 c hc
    cases l2 with
    | nil => simp at hc
    | cons b t2 =>
      simp only [List.zipWith_cons_cons, List.mem_cons] at hc
      rcases hc with rfl | hc
      · exact ⟨a, List.mem_cons_self _ _, b, List.mem_cons_self _ _, rfl⟩
      · obtain ⟨a', ha', b', hb', rfl⟩ := ih hc
        exact ⟨a', List.mem_cons_of_mem _ ha', b', List.mem_cons_of_mem _ hb', rfl⟩

theorem gridShape_maskSet {o n : Grid} {h w : Nat} (bg : ℚ)
    (ho : GridShape o h w) (hn : GridShape n h w) :
    GridShape (maskSet o n bg) h w := by
  refine ⟨?_, ?_⟩
  · rw [maskSet, List.length_zipWith, ho.1, hn.1]
    exact min_self h
  · intro r hr
    obtain ⟨ro, hro, rn, hrn, rfl⟩ := mem_zipWith hr
    obtain ⟨hro_l, hro_p⟩ := ho.2 ro hro
    obtain ⟨hrn_l, hrn_p⟩ := hn.2 rn hrn
    refine ⟨?_, ?_⟩
    · rw [List.length_zipWith, hro_l, hrn_l]; exact min_self w
    · intro p hp
      obtain ⟨po, hpo, pn, hpn, rfl⟩ := mem_zipWith hp
      rw [List.length_zipWith, hro_p po hpo, hrn_p pn hpn]
      exact min_self 3

theorem gridShape_setHSV {g : Grid} {h w : Nat} (hs : GridShape g h w) (a b c : ℚ) :
    GridShape (g.map (fun r => r.map (setHSVpix a b c))) h w := by
  obtain ⟨h1, h2⟩ := hs
  refine ⟨by simpa using h1, ?_⟩
  intro r hr
  obtain ⟨r0, hr0, rfl⟩ := List.mem_map.mp hr
  obtain ⟨hrl, hrp⟩ := h2 r0 hr0
  refine ⟨by simpa using hrl, ?_⟩
  intro p hp
  obtain ⟨p0, hp0, rfl⟩ := List.mem_map.mp hp
  simpa [setHSVpix, List.length_set] using hrp p0 hp0

theorem width_of_shape {img : Image} {H W : Nat} (h : HasShape img H W) (hpos : 0 < H) :
    img.W = W := by
  obtain ⟨hlen, hrow⟩ := h
  cases hd : img.data with
  | nil => rw [hd] at hlen; simp at hlen; omega
  | cons r rs =>
    have hr : r ∈ img.data := by rw [hd]; exact List.mem_cons_self _ _
    have := (hrow r hr).1
    simp [Image.W, gridW, hd, this]

/-- Shape invariance of `random_hue`, given the colour collaborators'
shape contracts. -/
theorem hasShape_random_hue (rgb2hsv hsv2rgb : Image → Image)
    (hrgb : ∀ im h' w', HasShape im h' w' → HasShape (rgb2hsv im) h' w')
    (hhsv : ∀ im h' w', HasShape im h' w' → HasShape (hsv2rgb im) h' w')
    (a b c d : ℚ) {img : Image} {H W : Nat} (himg : HasShape img H W) :
    HasShape (random_hue rgb2hsv hsv2rgb a b c d img) H W := by
  exact gridShape_mapVals _ (gridShape_maskSet _ himg
    (hhsv _ _ _ (gridShape_mapVals _
      (gridShape_setHSV (hrgb _ _ _ (gridShape_mapVals _ himg)) _ _ _))))

/-- Shape invariance of `random_rotate`, given the resize-to-size
collaborator's shape contract. -/
theorem hasShape_random_rotate (rotateP : Image → Image)
    (resizeTo : Nat → Nat → Image → Image)
    (hrt : ∀ h' w' im, HasShape (resizeTo h' w' im) h' w')
    {img : Image} {H W : Nat} (himg : HasShape img H W) :
    HasShape (random_rotate rotateP resizeTo img) H W := by
  have hH : img.H = H := himg.1
  rcases Nat.eq_zero_or_pos H with h0 | hpos
  · have hlen : (random_rotate rotateP resizeTo img).data.length = 0 := by
      unfold random_rotate
      exact (hrt _ _ (rotateP img)).1.trans (hH.trans h0)
    refine ⟨hlen.trans h0.symm, ?_⟩
    intro r hr
    rw [List.length_eq_zero] at hlen
    rw [hlen] at hr
    simp at hr
  · unfold random_rotate
    rw [hH, width_of_shape himg hpos]
    exact hrt H W _

theorem length_sliceL (a b : Nat) (l : List α) :
    (sliceL a b l).length = min (b - a) (l.length - a) := by
  simp [sliceL]

theorem mem_sliceL {a b : Nat} {l : List α} {x : α} (h : x ∈ sliceL a b l) : x ∈ l :=
  List.mem_of_mem_drop (List.mem_of_mem_take h)

theorem gridShape_padGrid {g : Grid} {u d l r h w : Nat}
    (hlen : u + g.length + d = h)
    (hw : l + gridW g + r = w)
    (hrow : ∀ row ∈ g, row.length = gridW g)
    (hpix : ∀ row ∈ g, ∀ p ∈ row, p.length = 3) :
    GridShape (padGrid g u d l r) h w := by
  constructor
  · simp only [padGrid, List.length_append, List.length_replicate, List.length_map]
    omega
  · intro row hrow'
    simp only [padGrid, List.mem_append] at hrow'
    have hzrow : row = List.replicate (l + gridW g + r) zeroPix →
        row.length = w ∧ ∀ p ∈ row, p.length = 3 := by
      rintro rfl
      refine ⟨by simp [List.length_replicate]; omega, ?_⟩
      intro p hp
      rw [List.eq_of_mem_replicate hp]
      rfl
    rcases hrow' with (h1 | h2) | h3
    · exact hzrow (List.eq_of_mem_replicate h1)
    · obtain ⟨row0, hrow0, rfl⟩ := List.mem_map.mp h2
      constructor
      · simp only [List.length_append, List.length_replicate, hrow row0 hrow0]
        omega
      · intro p hp
        simp only [List.mem_append] at hp
        rcases hp with (hp1 | hp2) | hp3
        · rw [List.eq_of_mem_replicate hp1]; rfl
        · exact hpix row0 hrow0 p hp2
        · rw [List.eq_of_mem_replicate hp3]; rfl
    · exact hzrow (List.eq_of_mem_replicate h3)

theorem hasShape_cropAndPad (dt : DType) {g : Grid} {gh gw : Nat}
    (hg : GridShape g gh gw)
    (imh imw ymin ymax xmin xmax : Nat)
    (himh : 1 ≤ imh) (himw : 1 ≤ imw)
    (hy : ymax ≤ imh - 1) (hx : xmax ≤ imw - 1) :
    HasShape (cropAndPad dt g imh imw ymin ymax xmin xmax) imh imw := by
  have key : ∀ cr : Grid,
      cr = (sliceL ymin ymax g).map (fun row => sliceL xmin xmax row) →
      GridShape (padGrid cr ((imh - cr.length) / 2)
        ((imh - cr.length) - (imh - cr.length) / 2)
        ((imw - gridW cr) / 2)
        ((imw - gridW cr) - (imw - gridW cr) / 2)) imh imw := by
    intro cr hcr
    have hch : cr.length ≤ imh - 1 := by
      rw [hcr, List.length_map, length_sliceL]
      exact le_trans (le_trans (min_le_left _ _) (Nat.sub_le _ _)) hy
    have hrows : ∀ row ∈ cr, row.length = min (xmax - xmin) (gw - xmin) := by
      intro row hrow
      rw [hcr] at hrow
      obtain ⟨row0, hrow0, rfl⟩ := List.mem_map.mp hrow
      rw [length_sliceL, (hg.2 row0 (mem_sliceL hrow0)).1]
    have hgw_eq : ∀ rr rs, cr = rr :: rs → gridW cr = min (xmax - xmin) (gw - xmin) := by
      intro rr rs hc
      have hrr : rr ∈ cr := by rw [hc]; exact List.mem_cons_self _ _
      have h1 := hrows rr hrr
      rw [hc]
      show ((rr :: rs).headD []).length = _
      simpa using h1
    have hgwc : ∀ row ∈ cr, gridW cr = row.length := by
      intro row hrow
      cases hc : cr with
      | nil => rw [hc] at hrow; simp at hrow
      | cons rr rs => rw [← hc, hgw_eq rr rs hc, hrows row hrow]
    have hcw : gridW cr ≤ imw - 1 := by
      cases hc : cr with
      | nil => exact Nat.zero_le _
      | cons rr rs =>
        rw [← hc, hgw_eq rr rs hc]
        exact le_trans (le_trans (min_le_left _ _) (Nat.sub_le _ _)) hx
    refine gridShape_padGrid ?_ ?_ (fun row hrow => (hgwc row hrow).symm) ?_
    · omega
    · omega
    · intro row hrow p hp
      rw [hcr] at hrow
      obtain ⟨row0, hrow0, rfl⟩ := List.mem_map.mp hrow
      exact (hg.2 row0 (mem_sliceL hrow0)).2 p (mem_sliceL hp)
  exact key _ rfl

theorem extent1_some_pos {xs : List ℚ} {p : Nat × Nat} (h : extent1 xs = some p) :
    0 < xs.length := by
  unfold extent1 at h
  cases h1 : (nzIdx xs).head? with
  | none =>
    rw [h1] at h
    cases h2 : (nzIdx xs).getLast? <;> rw [h2] at h <;> simp at h
  | some a =>
    have ha : a ∈ nzIdx xs := List.mem_of_mem_head? h1
    have ha2 := (List.mem_filter.mp ha).1
    have := List.mem_range.mp ha2
    omega

theorem length_rowSums (g : Grid) : (rowSums g).length = g.length := by
  simp [rowSums]

theorem length_colSums (g : Grid) : (colSums g).length = gridW g := by
  simp [colSums]

/-- Shape invariance of `random_scale` on every successful path, given
that the resampler returns a rectangular array of some shape. -/
theorem hasShape_random_scale {resize : Image → Image} {img out : Image}
    {min_pad : Nat} {H W : Nat}
    (himg : HasShape img H W)
    (hresize : ∀ im, ∃ h' w', HasShape (resize im) h' w')
    (hok : random_scale resize img min_pad = PyResult.ok out) :
    HasShape out H W := by
  unfold random_scale at hok
  cases he1 : extent1 (rowSums img.data) with
  | none => rw [he1] at hok; simp at hok
  | some rc =>
    cases he2 : extent1 (colSums img.data) with
    | none => rw [he1, he2] at hok; simp at hok
    | some cc =>
      rw [he1, he2] at hok
      obtain ⟨r0, r1⟩ := rc
      obtain ⟨c0, c1⟩ := cc
      simp only [] at hok
      by_cases hz : r1 - r0 = 0 ∨ c1 - c0 = 0
      · rw [if_pos hz] at hok; simp at hok
      · rw [if_neg hz] at hok
        cases he3 : extent1 (rowSums (resize img).data) with
        | none => rw [he3] at hok; simp at hok
        | some yy =>
          cases he4 : extent1 (colSums (resize img).data) with
          | none => rw [he3, he4] at hok; simp at hok
          | some xx =>
            rw [he3, he4] at hok
            obtain ⟨y0, y1⟩ := yy
            obtain ⟨x0, x1⟩ := xx
            simp only [] at hok
            by_cases hfb : (y1 - y0) + 2 * min_pad > img.H ∨
                (x1 - x0) + 2 * min_pad > img.W
            · rw [if_pos hfb] at hok
              rw [← (PyResult.ok.injEq _ _).mp hok]
              exact himg
            · rw [if_neg hfb] at hok
              have hH1 : 0 < img.H := by
                have := extent1_some_pos he1
                rwa [length_rowSums] at this
              have hW1 : 0 < img.W := by
                have := extent1_some_pos he2
                rwa [length_colSums] at this
              have hHH : img.H = H := himg.1
              have hWW : img.W = W := width_of_shape himg (hHH ▸ hH1)
              obtain ⟨h', w', hres⟩ := hresize img
              rw [← (PyResult.ok.injEq _ _).mp hok, ← hHH, ← hWW]
              exact hasShape_cropAndPad _ hres _ _ _ _ _ _ hH1 hW1
                (min_le_right (y1 + min_pad) (img.H - 1))
                (min_le_right (x1 + min_pad) (img.W - 1))

/-- Shape invariance of `random_transform` on every successful path. -/
theorem hasShape_random_transform
    (resize rgb2hsv hsv2rgb rotateP : Image → Image)
    (resizeTo : Nat → Nat → Image → Image)
    (D : Draws) (original invert scale hue rotate : ℚ) {img out : Image} {H W : Nat}
    (himg : HasShape img H W)
    (hresize : ∀ im, ∃ h' w', HasShape (resize im) h' w')
    (hrgb : ∀ im h' w', HasShape im h' w' → HasShape (rgb2hsv im) h' w')
    (hhsv : ∀ im h' w', HasShape im h' w' → HasShape (hsv2rgb im) h' w')
    (hrt : ∀ h' w' im, HasShape (resizeTo h' w' im) h' w')
    (hok : random_transform resize rgb2hsv hsv2rgb rotateP resizeTo D
        original invert scale hue rotate img = PyResult.ok out) :
    HasShape out H W := by
  unfold random_transform at hok
  by_cases h0 : D.d_orig < original
  · rw [if_pos h0] at hok
    rw [← (PyResult.ok.injEq _ _).mp hok]
    exact gridShape_mapVals _ himg
  · rw [if_neg h0] at hok
    cases hsc : (if D.d_scale < scale then random_scale resize img 0 else PyResult.ok img) with
    | raise e => rw [hsc] at hok; simp at hok
    | ok t1 =>
      rw [hsc] at hok
      simp only [] at hok
      have ht1 : HasShape t1 H W := by
        by_cases hs : D.d_scale < scale
        · rw [if_pos hs] at hsc
          exact hasShape_random_scale himg hresize hsc
        · rw [if_neg hs] at hsc
          rw [← (PyResult.ok.injEq _ _).mp hsc]
          exact himg
      have ht2 : HasShape (if D.d_hue < hue then
          random_hue rgb2hsv hsv2rgb D.r_hue D.r_sat D.r_val07 D.r_val31 t1 else t1) H W := by
        by_cases hh : D.d_hue < hue
        · rw [if_pos hh]
          exact hasShape_random_hue _ _ hrgb hhsv _ _ _ _ ht1
        · rw [if_neg hh]
          exact ht1
      have ht3 : HasShape (if D.d_rot < rotate then
          random_rotate rotateP resizeTo (if D.d_hue < hue then
            random_hue rgb2hsv hsv2rgb D.r_hue D.r_sat D.r_val07 D.r_val31 t1 else t1)
          else (if D.d_hue < hue then
            random_hue rgb2hsv hsv2rgb D.r_hue D.r_sat D.r_val07 D.r_val31 t1 else t1)) H W := by
        by_cases hro : D.d_rot < rotate
        · rw [if_pos hro]
          exact hasShape_random_rotate _ _ hrt ht2
        · rw [if_neg hro]
          exact ht2
      rw [← (PyResult.ok.injEq _ _).mp hok]
      by_cases hi : D.d_inv < invert
      · rw [if_pos hi]
        exact gridShape_mapVals _ (gridShape_mapVals _ ht3)
      · rw [if_neg hi]
        exact gridShape_mapVals _ ht3

theorem gridShape_zeros (h w : Nat) :
    GridShape (List.replicate h (List.replicate w zeroPix)) h w := by
  refine ⟨List.length_replicate _ _, ?_⟩
  intro r hr
  rw [List.eq_of_mem_replicate hr]
  refine ⟨List.length_replicate _ _, ?_⟩
  intro p hp
  rw [List.eq_of_mem_replicate hp]
  rfl

/-- Claim C6: for a well-formed H×W×3 canvas (with nonzero content where
the operation demands it, expressed by conditioning on a non-raising
run), each of `random_scale` (both fallback and crop-pad paths),
`random_hue`, `random_rotate`, `invert_img` and `random_transform`
returns a canvas of exactly the input's height and width, for every
random draw, given the resampling and colour collaborators' contracts. -/
theorem C6_shape_invariance
    (resize rgb2hsv hsv2rgb rotateP : Image → Image)
    (resizeTo : Nat → Nat → Image → Image)
    (D : Draws) (original invert scale hue rotate : ℚ)
    (img : Image) (H W : Nat)
    (himg : HasShape img H W)
    (hresize : ∀ im, ∃ h' w', HasShape (resize im) h' w')
    (hrgb : ∀ im h' w', HasShape im h' w' → HasShape (rgb2hsv im) h' w')
    (hhsv : ∀ im h' w', HasShape im h' w' → HasShape (hsv2rgb im) h' w')
    (hrt : ∀ h' w' im, HasShape (resizeTo h' w' im) h' w') :
    (∀ min_pad out, random_scale resize img min_pad = PyResult.ok out →
      HasShape out H W) ∧
    (∀ a b c d, HasShape (random_hue rgb2hsv hsv2rgb a b c d img) H W) ∧
    HasShape (random_rotate rotateP resizeTo img) H W ∧
    HasShape (invert_img img) H W ∧
    (∀ out, random_transform resize rgb2hsv hsv2rgb rotateP resizeTo D
        original invert scale hue rotate img = PyResult.ok out →
      HasShape out H W) := by
  refine ⟨?_, ?_, ?_, ?_, ?_⟩
  · intro min_pad out hok
    exact hasShape_random_scale himg hresize hok
  · intro a b c d
    exact hasShape_random_hue _ _ hrgb hhsv _ _ _ _ himg
  · exact hasShape_random_rotate _ _ hrt himg
  · exact gridShape_mapVals _ himg
  · intro out hok
    exact hasShape_random_transform _ _ _ _ _ _ _ _ _ _ _ himg hresize hrgb hhsv hrt hok

/-- Witness for C6: a concrete 2×2 canvas and concrete collaborators
satisfying the contracts; the bundled conclusion is instantiated there. -/
theorem C6_shape_invariance_witness :
    (∀ min_pad out,
      random_scale (fun _ => Image.mk DType.uint8 [[[1, 1, 1]]])
          (Image.mk DType.uint8 [[[1, 1, 1], [0, 0, 0]], [[0, 0, 0], [2, 2, 2]]]) min_pad
        = PyResult.ok out → HasShape out 2 2) ∧
    (∀ a b c d, HasShape (random_hue (fun im => im) (fun im => im) a b c d
      (Image.mk DType.uint8 [[[1, 1, 1], [0, 0, 0]], [[0, 0, 0], [2, 2, 2]]])) 2 2) ∧
    HasShape (random_rotate (fun im => im)
      (fun h w _ => Image.mk DType.uint8 (List.replicate h (List.replicate w zeroPix)))
      (Image.mk DType.uint8 [[[1, 1, 1], [0, 0, 0]], [[0, 0, 0], [2, 2, 2]]])) 2 2 ∧
    HasShape (invert_img
      (Image.mk DType.uint8 [[[1, 1, 1], [0, 0, 0]], [[0, 0, 0], [2, 2, 2]]])) 2 2 ∧
    (∀ out, random_transform (fun _ => Image.mk DType.uint8 [[[1, 1, 1]]])
        (fun im => im) (fun im => im) (fun im => im)
        (fun h w _ => Image.mk DType.uint8 (List.replicate h (List.replicate w zeroPix)))
        (Draws.mk 0 0 0 0 0 0 0 0 0) 0 0 1 1 1
        (Image.mk DType.uint8 [[[1, 1, 1], [0, 0, 0]], [[0, 0, 0], [2, 2, 2]]])
        = PyResult.ok out → HasShape out 2 2) :=
  C6_shape_invariance (fun _ => Image.mk DType.uint8 [[[1, 1, 1]]])
    (fun im => im) (fun im => im) (fun im => im)
    (fun h w _ => Image.mk DType.uint8 (List.replicate h (List.replicate w zeroPix)))
    (Draws.mk 0 0 0 0 0 0 0 0 0) 0 0 1 1 1
    (Image.mk DType.uint8 [[[1, 1, 1], [0, 0, 0]], [[0, 0, 0], [2, 2, 2]]]) 2 2
    (by decide)
    (fun _ => ⟨1, 1, show GridShape [[[1, 1, 1]]] 1 1 by decide⟩)
    (fun _ _ _ h1 => h1)
    (fun _ _ _ h1 => h1)
    (fun h w _ => gridShape_zeros h w)

theorem getD_replicate_lt {α : Type} {a d : α} :
    ∀ {n i : Nat}, i < n → (List.replicate n a).getD i d = a := by
  intro n
  induction n with
  | zero => intro i h; omega
  | succ m ih =>
    intro i h
    cases i with
    | zero => rfl
    | succ k => exact ih (by omega)

theorem padGrid_getD_top {g : Grid} {u d l r i : Nat} (h : i < u) :
    (padGrid g u d l r).getD i [] = List.replicate (l + gridW g + r) zeroPix := by
  unfold padGrid
  rw [List.getD_eq_getElem?_getD, List.getElem?_append_left, List.getElem?_append_left]
  · rw [List.getElem?_replicate, if_pos h]
    rfl
  · rw [List.length_replicate]; exact h
  · rw [List.length_append, List.length_replicate]; omega

theorem padGrid_getD_mid {g : Grid} {u d l r i : Nat} (hu : u ≤ i)
    (hlt : i < u + g.length) :
    (padGrid g u d l r).getD i [] =
      List.replicate l zeroPix ++ g.getD (i - u) [] ++ List.replicate r zeroPix := by
  have hiu : i - u < g.length := by omega
  unfold padGrid
  rw [List.getD_eq_getElem?_getD, List.getElem?_append_left, List.getElem?_append_right]
  · rw [List.length_replicate, List.getElem?_map, List.getElem?_eq_getElem hiu]
    rw [List.getD_eq_getElem?_getD, List.getElem?_eq_getElem hiu]
    rfl
  · rw [List.length_replicate]; omega
  · rw [List.length_append, List.length_replicate, List.length_map]; omega

theorem padGrid_getD_bot {g : Grid} {u d l r i : Nat} (h1 : u + g.length ≤ i)
    (h2 : i < u + g.length + d) :
    (padGrid g u d l r).getD i [] = List.replicate (l + gridW g + r) zeroPix := by
  unfold padGrid
  rw [List.getD_eq_getElem?_getD, List.getElem?_append_right]
  · rw [List.length_append, List.length_replicate, List.length_map]
    rw [List.getElem?_replicate, if_pos (by omega)]
    rfl
  · rw [List.length_append, List.length_replicate, List.length_map]; omega

/-- The three zero-padding regions that `padGrid` introduces: the rows
above and below the content, and the left/right pixel bands of every
content row, all hold the constant zero pixel. -/
theorem padGrid_zero_regions (g : Grid) (u d l r : Nat)
    (hrow : ∀ row ∈ g, row.length = gridW g) :
    (∀ i < u, (padGrid g u d l r).getD i [] = List.replicate (l + gridW g + r) zeroPix) ∧
    (∀ i, u + g.length ≤ i → i < u + g.length + d →
      (padGrid g u d l r).getD i [] = List.replicate (l + gridW g + r) zeroPix) ∧
    (∀ i j, u ≤ i → i < u + g.length →
      (j < l ∨ (l + gridW g ≤ j ∧ j < l + gridW g + r)) →
      ((padGrid g u d l r).getD i []).getD j [] = zeroPix) := by
  refine ⟨fun i hi => padGrid_getD_top hi, fun i h1 h2 => padGrid_getD_bot h1 h2, ?_⟩
  intro i j hu hlt hj
  rw [padGrid_getD_mid hu hlt]
  have hiu : i - u < g.length := by omega
  have hmem : g.getD (i - u) [] ∈ g := by
    rw [List.getD_eq_getElem?_getD, List.getElem?_eq_getElem hiu]
    exact List.getElem_mem _
  have hlen : (g.getD (i - u) []).length = gridW g := hrow _ hmem
  rcases hj with hj | ⟨hj1, hj2⟩
  · rw [List.getD_eq_getElem?_getD, List.getElem?_append_left, List.getElem?_append_left]
    · rw [List.getElem?_replicate, if_pos hj]
      rfl
    · rw [List.length_replicate]; exact hj
    · rw [List.length_append, List.length_replicate]; omega
  · rw [List.getD_eq_getElem?_getD, List.getElem?_append_right]
    · rw [List.length_append, List.length_replicate, hlen]
      rw [List.getElem?_replicate, if_pos (by omega)]
      rfl
    · rw [List.length_append, List.length_replicate, hlen]; omega

/-- Every row of the cropped grid has the crop's common width. -/
theorem sliceMap_rows_gridW {g : Grid} {gh gw : Nat} (hg : GridShape g gh gw)
    (ymin ymax xmin xmax : Nat) :
    ∀ row ∈ (sliceL ymin ymax g).map (fun row => sliceL xmin xmax row),
      row.length = gridW ((sliceL ymin ymax g).map (fun row => sliceL xmin xmax row)) := by
  have hrows : ∀ row ∈ (sliceL ymin ymax g).map (fun row => sliceL xmin xmax row),
      row.length = min (xmax - xmin) (gw - xmin) := by
    intro row hrow
    obtain ⟨row0, hrow0, rfl⟩ := List.mem_map.mp hrow
    rw [length_sliceL, (hg.2 row0 (mem_sliceL hrow0)).1]
  intro row hrow
  cases hc : (sliceL ymin ymax g).map (fun row => sliceL xmin xmax row) with
  | nil => rw [hc] at hrow; simp at hrow
  | cons rr rs =>
    have hrr : rr ∈ (sliceL ymin ymax g).map (fun row => sliceL xmin xmax row) := by
      rw [hc]; exact List.mem_cons_self _ _
    rw [hrows row hrow]
    show _ = ((rr :: rs).headD []).length
    simpa using (hrows rr hrr).symm

/-- On the non-fallback crop path, `random_scale` returns exactly the
crop-and-repad of the resampled canvas at the clipped extent. -/
theorem random_scale_crop_eq
    {resize : Image → Image} {img out : Image} {min_pad : Nat}
    {r0 r1 c0 c1 y0 y1 x0 x1 : Nat}
    (hr : extent1 (rowSums img.data) = some (r0, r1))
    (hc : extent1 (colSums img.data) = some (c0, c1))
    (hr0 : r1 - r0 ≠ 0) (hc0 : c1 - c0 ≠ 0)
    (hy : extent1 (rowSums (resize img).data) = some (y0, y1))
    (hx : extent1 (colSums (resize img).data) = some (x0, x1))
    (hcond : ¬((y1 - y0) + 2 * min_pad > img.H ∨ (x1 - x0) + 2 * min_pad > img.W))
    (hok : random_scale resize img min_pad = PyResult.ok out) :
    out = cropAndPad (resize img).dtype (resize img).data img.H img.W
      (y0 - min_pad) (min (y1 + min_pad) (img.H - 1))
      (x0 - min_pad) (min (x1 + min_pad) (img.W - 1)) := by
  unfold random_scale at hok
  rw [hr, hc] at hok
  simp only [] at hok
  rw [if_neg (by push_neg; exact ⟨hr0, hc0⟩), hy, hx] at hok
  simp only [] at hok
  rw [if_neg hcond] at hok
  exact ((PyResult.ok.injEq _ _).mp hok).symm

/-- Claim C7: on every non-fallback execution of `random_scale`, the
output is exactly the re-pad of the execution's actual cropped grid —
the half-open slice of the resampled canvas at the clipped extent — with
each axis deficit split as `pad_before = floor(deficit/2)`,
`pad_after = deficit - pad_before`.  Hence `pad_before ≤ pad_after ≤
pad_before + 1` on each axis, an odd deficit puts the extra pixel after
the content (below / to the right, biasing content toward the top-left),
and every padded pixel of the output is the constant zero pixel.  The
universally quantified `cropped`, `pu`, `pd`, `pl`, `pr` are pinned by
the defining equations to the run's actual crop and pad amounts. -/
theorem C7_repad_split
    (resize : Image → Image) (img : Image) (min_pad : Nat)
    (r0 r1 c0 c1 y0 y1 x0 x1 gh gw : Nat) (out : Image)
    (hr : extent1 (rowSums img.data) = some (r0, r1))
    (hc : extent1 (colSums img.data) = some (c0, c1))
    (hr0 : r1 - r0 ≠ 0) (hc0 : c1 - c0 ≠ 0)
    (hy : extent1 (rowSums (resize img).data) = some (y0, y1))
    (hx : extent1 (colSums (resize img).data) = some (x0, x1))
    (hcond : ¬((y1 - y0) + 2 * min_pad > img.H ∨ (x1 - x0) + 2 * min_pad > img.W))
    (hres : HasShape (resize img) gh gw)
    (hok : random_scale resize img min_pad = PyResult.ok out) :
    ∀ cropped pu pd pl pr,
      cropped = (sliceL (y0 - min_pad) (min (y1 + min_pad) (img.H - 1))
          (resize img).data).map
        (fun row => sliceL (x0 - min_pad) (min (x1 + min_pad) (img.W - 1)) row) →
      pu = (img.H - cropped.length) / 2 →
      pd = (img.H - cropped.length) - pu →
      pl = (img.W - gridW cropped) / 2 →
      pr = (img.W - gridW cropped) - pl →
      out.data = padGrid cropped pu pd pl pr ∧
      (pu ≤ pd ∧ pd ≤ pu + 1) ∧
      (pl ≤ pr ∧ pr ≤ pl + 1) ∧
      ((img.H - cropped.length) % 2 = 1 → pd = pu + 1) ∧
      ((img.W - gridW cropped) % 2 = 1 → pr = pl + 1) ∧
      (∀ i < pu, out.data.getD i [] = List.replicate (pl + gridW cropped + pr) zeroPix) ∧
      (∀ i, pu + cropped.length ≤ i → i < pu + cropped.length + pd →
        out.data.getD i [] = List.replicate (pl + gridW cropped + pr) zeroPix) ∧
      (∀ i j, pu ≤ i → i < pu + cropped.length →
        (j < pl ∨ (pl + gridW cropped ≤ j ∧ j < pl + gridW cropped + pr)) →
        (out.data.getD i []).getD j [] = zeroPix) := by
  intro cropped pu pd pl pr hcrop hpu hpd hpl hpr
  subst hcrop
  subst hpu
  subst hpd
  subst hpl
  subst hpr
  have heq := random_scale_crop_eq hr hc hr0 hc0 hy hx hcond hok
  refine ⟨?_, ⟨by omega, by omega⟩, ⟨by omega, by omega⟩, by omega, by omega, ?_, ?_, ?_⟩
  · rw [heq]
    rfl
  · intro i hi
    rw [heq]
    exact (padGrid_zero_regions _ _ _ _ _ (sliceMap_rows_gridW hres _ _ _ _)).1 i hi
  · intro i h1 h2
    rw [heq]
    exact (padGrid_zero_regions _ _ _ _ _
      (sliceMap_rows_gridW hres _ _ _ _)).2.1 i h1 h2
  · intro i j h1 h2 hj
    rw [heq]
    exact (padGrid_zero_regions _ _ _ _ _
      (sliceMap_rows_gridW hres _ _ _ _)).2.2 i j h1 h2 hj

/-- Witness for C7: identity resample of a 3×3 canvas with a 2×2 content
block (nonzero rows/cols 0..1), `min_pad = 0`.  The run's actual crop is
the single pixel `[[3,3,3]]` (discharged by evaluation), both actual
deficits are 2 and split as 1 before, 1 after, and the output is exactly
that pad of the actual crop, its border pixels all zero. -/
theorem C7_repad_split_witness :
    (Image.mk DType.uint8
      [[[0, 0, 0], [0, 0, 0], [0, 0, 0]],
       [[0, 0, 0], [3, 3, 3], [0, 0, 0]],
       [[0, 0, 0], [0, 0, 0], [0, 0, 0]]]).data = padGrid [[[3, 3, 3]]] 1 1 1 1 ∧
    (1 ≤ 1 ∧ 1 ≤ 1 + 1) ∧
    (1 ≤ 1 ∧ 1 ≤ 1 + 1) ∧
    ((3 - 1) % 2 = 1 → 1 = 1 + 1) ∧
    ((3 - 1) % 2 = 1 → 1 = 1 + 1) ∧
    (∀ i < 1, (Image.mk DType.uint8
      [[[0, 0, 0], [0, 0, 0], [0, 0, 0]],
       [[0, 0, 0], [3, 3, 3], [0, 0, 0]],
       [[0, 0, 0], [0, 0, 0], [0, 0, 0]]]).data.getD i []
        = List.replicate 3 zeroPix) ∧
    (∀ i, 1 + 1 ≤ i → i < 1 + 1 + 1 →
      (Image.mk DType.uint8
        [[[0, 0, 0], [0, 0, 0], [0, 0, 0]],
         [[0, 0, 0], [3, 3, 3], [0, 0, 0]],
         [[0, 0, 0], [0, 0, 0], [0, 0, 0]]]).data.getD i []
        = List.replicate 3 zeroPix) ∧
    (∀ i j, 1 ≤ i → i < 1 + 1 →
      (j < 1 ∨ (1 + 1 ≤ j ∧ j < 1 + 1 + 1)) →
      ((Image.mk DType.uint8
        [[[0, 0, 0], [0, 0, 0], [0, 0, 0]],
         [[0, 0, 0], [3, 3, 3], [0, 0, 0]],
         [[0, 0, 0], [0, 0, 0], [0, 0, 0]]]).data.getD i []).getD j [] = zeroPix) :=
  C7_repad_split (fun im => im)
    (Image.mk DType.uint8
      [[[3, 3, 3], [0, 0, 0], [0, 0, 0]],
       [[0, 0, 0], [4, 4, 4], [0, 0, 0]],
       [[0, 0, 0], [0, 0, 0], [0, 0, 0]]]) 0
    0 1 0 1 0 1 0 1 3 3
    (Image.mk DType.uint8
      [[[0, 0, 0], [0, 0, 0], [0, 0, 0]],
       [[0, 0, 0], [3, 3, 3], [0, 0, 0]],
       [[0, 0, 0], [0, 0, 0], [0, 0, 0]]])
    (by decide) (by decide) (by decide) (by decide) (by decide) (by decide)
    (by decide) (by decide) (by decide)
    [[[3, 3, 3]]] 1 1 1 1
    (by decide) (by decide) (by decide) (by decide) (by decide)

/-- Witness for the amended C3: the identity path returns uint8. -/
theorem C3_dtype_amended_witness :
    (Image.mk DType.uint8 [[[7, 7, 7]]]).dtype = DType.uint8 :=
  C3_dtype_amended (fun im => im) (fun im => im) (fun im => im) (fun im => im)
    (fun _ _ im => astypeU8 im) (fun _ _ _ => rfl)
    (Draws.mk 0 0 0 0 0 0 0 0 0) 1 0 0 0 0 (Image.mk DType.float64 [[[7, 7, 7]]])
    (Image.mk DType.uint8 [[[7, 7, 7]]])
    (by decide) (Or.inl (by decide))

end DataAugment
